import Mathlib

/-!
Verification of the streaming multipart/form-data decoder in
`src/views/utils.py` (classes `FileStream` and `File`).

The embedding models byte strings as `List Nat` (each entry a byte value),
the sanic chunk source as a list of pending chunks, and the async generator
`File._iter_content` as an explicit state machine whose suspension points
(`GenPos`) are the generator's `yield` statements.  Python exceptions are
modelled by the `PyErr` type; fallible operations return `Except PyErr`.
Loops whose termination depends on the data are given explicit fuel and
return `Option`; `none` means the fuel ran out and never occurs in any of
the theorems below.
-/

set_option maxRecDepth 8000

namespace FileUpload

/-- Byte strings: lists of byte values. -/
abbrev Bytes := List Nat

/-- UTF-8 encoding of a single character, as CPython `str.encode` produces it. -/
def utf8Encode (c : Char) : Bytes :=
  let n := c.toNat
  if n < 128 then [n]
  else if n < 2048 then [192 + n / 64, 128 + n % 64]
  else if n < 65536 then [224 + n / 4096, 128 + (n / 64) % 64, 128 + n % 64]
  else [240 + n / 262144, 128 + (n / 4096) % 64, 128 + (n / 64) % 64, 128 + n % 64]

/-- Bytes of a Lean string literal, used to transcribe the Python byte literals. -/
def strBytes (s : String) : Bytes := s.data.flatMap utf8Encode

/-- Concatenation of a list of byte chunks. -/
def joinL : List Bytes → Bytes
  | [] => []
  | c :: t => c ++ joinL t

/-- Index of the first occurrence of `pat` in `l`; `none` when absent.
Mirrors Python `bytes.find` (which returns `-1` for absent). -/
def bfind : Bytes → Bytes → Option Nat
  | l, pat =>
    if pat.isPrefixOf l then some 0
    else
      match l with
      | [] => none
      | _ :: t => (bfind t pat).map (fun i => i + 1)

/-- Python `bytes.find` with its `-1` convention. -/
def pyfind (l pat : Bytes) : Int :=
  match bfind l pat with
  | some i => (i : Int)
  | none => -1

/-- `pat in l`, Python byte containment. -/
def hasSub (l pat : Bytes) : Bool := (bfind l pat).isSome

/-- Python slice `l[i:]` for a possibly negative index. -/
def pysliceFrom (l : Bytes) (i : Int) : Bytes :=
  if i < 0 then l.drop (((l.length : Int) + i).toNat) else l.drop i.toNat

/-- Python slice `l[:i]` for a possibly negative index. -/
def pysliceTo (l : Bytes) (i : Int) : Bytes :=
  if i < 0 then l.take (((l.length : Int) + i).toNat) else l.take i.toNat

/-- Python exceptions raised by the code under verification. -/
inductive PyErr where
  | stopAsyncIteration
  | valueError (msg : String)
  | keyError
  | runtimeError (msg : String)
  | attributeError
  | assertionError
  | unicodeDecodeError
  | unsupportedCodec
deriving Repr, DecidableEq

/-! ## The shared stream (`FileStream` mutable state)

`chunks` models the transport: `request.stream.get()` pops the next chunk,
and returns the end-of-input marker once the list is empty.  `body` is
`FileStream.body`, the unconsumed reassembly buffer; `closed` is
`FileStream.closed`. -/

structure StreamState where
  chunks : List Bytes
  body : Bytes
  closed : Bool
deriving Repr, DecidableEq

/-- `File.get_message`: pull one chunk; a falsy (empty / end-of-input) message
sets `closed` and appends nothing, otherwise the chunk is appended to `body`. -/
def get_message (s : StreamState) : StreamState :=
  match s.chunks with
  | [] => { s with closed := true }
  | c :: rest =>
      if c = [] then { s with chunks := rest, closed := true }
      else { s with chunks := rest, body := s.body ++ c }

/-! ## The body generator `File._iter_content`

`File.__init__` stores `tmpboundary = b"\r\n--" + boundary` and
`boundary_len = len(tmpboundary)`. -/

structure FileCfg where
  tmpboundary : Bytes
  boundary_len : Nat
deriving Repr, DecidableEq

def mkTmpBoundary (boundary : Bytes) : Bytes := [13, 10, 45, 45] ++ boundary

def mkFileCfg (boundary : Bytes) : FileCfg :=
  ⟨mkTmpBoundary boundary, (mkTmpBoundary boundary).length⟩

/-- Suspension points of the generator `File._iter_content`:
`top` is the head of the `while True` loop (also the resume point of the
`yield self._last` in its first branch, whose `continue` returns to the
head); `pulling` is the resume point of the `yield read` in the
boundary-not-found branch (on resume the generator awaits `get_message` and
loops); `finishing` is the resume point of the `yield read` in the
boundary-found branch (on resume it yields `self._last` if non-empty, else
breaks); `done` covers both the resume point of that last yield (whose next
step is `break`) and the exhausted or errored generator. -/
inductive GenPos where
  | top
  | pulling
  | finishing
  | done
deriving Repr, DecidableEq

/-- The mutable state visible to one `File`: the shared stream, `self._last`,
`self._size`, and the generator position. -/
structure FileState where
  stream : StreamState
  lastB : Bytes
  sizeB : Nat
  pos : GenPos
deriving Repr, DecidableEq

/-- Result of one `body_iter.asend(None)`. -/
inductive StepRes where
  | yielded (b : Bytes)
  | stopped
  | failed (e : PyErr)
deriving Repr, DecidableEq

/-- The loop head of `_iter_content`: yield `self._last` if non-empty;
else search `stream.body` for `tmpboundary`; if found at `i`, yield
`body[:i]`, give `body[i:]` back to the stream and move to the finishing
branch; if absent and the stream is closed raise
`RuntimeError("Uncomplete content!")`; otherwise yield `body[:-boundary_len]`,
keep `body[-boundary_len:]` as the new buffer and suspend before pulling the
next chunk. -/
def topStep (cfg : FileCfg) (st : FileState) : StepRes × FileState :=
  if st.lastB ≠ [] then (.yielded st.lastB, { st with pos := .top })
  else
    match bfind st.stream.body cfg.tmpboundary with
    | some i =>
        let readPart := st.stream.body.take i
        (.yielded readPart,
          { st with
              stream := { st.stream with body := st.stream.body.drop i },
              sizeB := st.sizeB + readPart.length,
              pos := .finishing })
    | none =>
        if st.stream.closed then
          (.failed (.runtimeError ("Uncomplete content!")), { st with pos := .done })
        else
          let n := st.stream.body.length - cfg.boundary_len
          let readPart := st.stream.body.take n
          (.yielded readPart,
            { st with
                stream := { st.stream with body := st.stream.body.drop n },
                sizeB := st.sizeB + readPart.length,
                pos := .pulling })

/-- One `asend(None)` on the generator, from its current suspension point. -/
def genNext (cfg : FileCfg) (st : FileState) : StepRes × FileState :=
  match st.pos with
  | .done => (.stopped, st)
  | .finishing =>
      if st.lastB ≠ [] then (.yielded st.lastB, { st with pos := .done })
      else (.stopped, { st with pos := .done })
  | .pulling => topStep cfg { st with stream := get_message st.stream }
  | .top => topStep cfg st

/-- Raw `async for` iteration over the generator: collect the yielded chunks
until the generator stops or raises.  The consumer never touches `_last`. -/
def iterAll (cfg : FileCfg) : Nat → FileState → Option (List Bytes × Except PyErr Unit × FileState)
  | 0, _ => none
  | fuel + 1, st =>
      let p := genNext cfg st
      match p.1 with
      | .stopped => some ([], .ok (), p.2)
      | .failed e => some ([], .error e, p.2)
      | .yielded b =>
          match iterAll cfg fuel p.2 with
          | none => none
          | some q => some (b :: q.1, q.2.1, q.2.2)

/-! ## The read adapter `File.read` -/

/-- The `while len(read) < size` loop of `File.read`: each iteration sends
into the generator, appends the yielded chunk, keeps the first `size` bytes
and stashes the surplus in `self._last`. -/
def readLoop (cfg : FileCfg) : Nat → Nat → Bytes → FileState → Option (Except PyErr Bytes × FileState)
  | 0, _, _, _ => none
  | fuel + 1, size, acc, st =>
      if size ≤ acc.length then some (.ok acc, st)
      else
        let p := genNext cfg st
        match p.1 with
        | .stopped => some (.ok acc, p.2)
        | .failed e => some (.error e, p.2)
        | .yielded b =>
            let r := acc ++ b
            readLoop cfg fuel size (r.take size) { p.2 with lastB := r.drop size }

/-- `File.read(size)`.  `assert size > 0` is modelled by failing on `size = 0`
(the type rules out negative sizes). -/
def pyRead (cfg : FileCfg) (fuel : Nat) (size : Nat) (st : FileState) :
    Option (Except PyErr Bytes × FileState) :=
  if size = 0 then some (.error .assertionError, st)
  else readLoop cfg fuel size [] st

/-- Repeatedly call `read(size)` until a call returns the empty result (the
drained signal); collect the non-empty results in order. -/
def readAll (cfg : FileCfg) : Nat → Nat → FileState → Option (List Bytes)
  | 0, _, _ => none
  | fuel + 1, size, st =>
      match pyRead cfg (fuel + 1) size st with
      | none => none
      | some q =>
          match q.1 with
          | .error _ => none
          | .ok r =>
              if r = [] then some []
              else
                match readAll cfg fuel size q.2 with
                | none => none
                | some rs => some (r :: rs)

/-! ## Header parsing: `File.parse_headers`

The class regexes are

    mime_type_regex = re.compile(b"Content-Type: (.*)")
    disposition_regex = re.compile(
        rb"Content-Disposition: form-data;"
        rb"(?: name=\"(?P<name>[^;]*?)\")?"
        rb"(?:; filename\*?=\"?"
        rb"(?:(?P<enc>.+?)\x27"
        rb"(?P<lang>\w*)\x27)?"
        rb"(?P<filename>[^\"]*)\"?)?")

(`\x27` stands for the single-quote byte, 39).  Since everything after the
literal `Content-Disposition: form-data;` is optional, `search` matches at
the first occurrence of that literal; the groups are resolved by the
backtracking semantics of the optional groups, modelled exactly below. -/

/-- The captured named groups of `disposition_regex`. -/
structure DispGroups where
  name : Option Bytes
  enc : Option Bytes
  lang : Option Bytes
  filename : Option Bytes
deriving Repr, DecidableEq

def dispLit : Bytes := strBytes ("Content-Disposition: form-data;")

/-- Literal head of the optional name group: a space then `name="`. -/
def groupALit : Bytes := strBytes (" name=\"")

/-- The lazy `[^;]*?` followed by `"`: capture up to the first double quote,
failing if a `;` (excluded by the class) or the end intervenes. -/
def scanName : Bytes → Option (Bytes × Bytes)
  | [] => none
  | c :: t =>
      if c = 34 then some ([], t)
      else if c = 59 then none
      else
        match scanName t with
        | some q => some (c :: q.1, q.2)
        | none => none

/-- `(?: name="(?P<name>[^;]*?)")?`. -/
def matchGroupA (r : Bytes) : Option (Bytes × Bytes) :=
  if groupALit.isPrefixOf r then scanName (r.drop groupALit.length) else none

def isWordByte (b : Nat) : Bool :=
  (48 ≤ b && b ≤ 57) || (65 ≤ b && b ≤ 90) || (97 ≤ b && b ≤ 122) || b = 95

/-- Greedy `\w*` followed by the single-quote byte.  (Only the maximal run
can be followed by a quote: any shorter stop has a word byte next.) -/
def wordStarQuote (s : Bytes) : Option (Bytes × Bytes) :=
  let run := s.takeWhile isWordByte
  match s.dropWhile isWordByte with
  | q :: t => if q = 39 then some (run, t) else none
  | [] => none

/-- The optional `(?P<enc>.+?)\x27(?P<lang>\w*)\x27` group: the lazy `.+?`
(any byte except newline, at least one) extends until a single quote whose
continuation `\w*\x27` matches; on continuation failure the quote itself is
consumed by `.+?` and scanning resumes (regex backtracking). -/
def encScan : Bytes → Bytes → Option (Bytes × Bytes × Bytes)
  | _, [] => none
  | acc, c :: t =>
      if acc ≠ [] ∧ c = 39 then
        match wordStarQuote t with
        | some q => some (acc.reverse, q.1, q.2)
        | none => encScan (c :: acc) t
      else if c = 10 then none
      else encScan (c :: acc) t

/-- `(?:; filename\*?="?(?:enc-group)?(?P<filename>[^"]*)"?)?`: returns
`(enc?, lang?, filename, rest)` on success. -/
def matchGroupB (r : Bytes) : Option (Option Bytes × Option Bytes × Bytes × Bytes) :=
  if (strBytes ("; filename")).isPrefixOf r then
    let r1 := r.drop 10
    let r2 := if r1.head? = some 42 then r1.drop 1 else r1
    if r2.head? = some 61 then
      let r3 := r2.drop 1
      let r4 := if r3.head? = some 34 then r3.drop 1 else r3
      match encScan [] r4 with
      | some q =>
          some (some q.1, some q.2.1, (q.2.2).takeWhile (fun b => b != 34),
                (q.2.2).dropWhile (fun b => b != 34))
      | none =>
          some (none, none, r4.takeWhile (fun b => b != 34),
                r4.dropWhile (fun b => b != 34))
    else none
  else none

/-- `disposition_regex.search(header_str)` followed by `.groupdict()`:
`none` models a failed search (the match object is `None`). -/
def dispositionSearch (s : Bytes) : Option DispGroups :=
  match bfind s dispLit with
  | none => none
  | some i =>
      let r := s.drop (i + dispLit.length)
      let ga := matchGroupA r
      let nameG : Option Bytes :=
        match ga with
        | some q => some q.1
        | none => none
      let r1 : Bytes :=
        match ga with
        | some q => q.2
        | none => r
      match matchGroupB r1 with
      | some q => some ⟨nameG, q.1, q.2.1, some q.2.2.1⟩
      | none => some ⟨nameG, none, none, none⟩

/-! ### Decoding helpers

Python strings are represented by their UTF-8 bytes.  `bytes.decode()`
(strict UTF-8) therefore only validates; `str.encode()` is the identity. -/

def isUtf8Cont (b : Nat) : Bool := 128 ≤ b && b ≤ 191

/-- Strict UTF-8 validity, as CPython `bytes.decode("utf-8")` accepts. -/
def validUtf8 : Bytes → Bool
  | [] => true
  | c :: t =>
      if c < 128 then validUtf8 t
      else if c < 194 then false
      else if c ≤ 223 then
        match t with
        | c1 :: t1 => isUtf8Cont c1 && validUtf8 t1
        | [] => false
      else if c ≤ 239 then
        match t with
        | c1 :: c2 :: t2 =>
            (if c = 224 then 160 ≤ c1 && c1 ≤ 191
             else if c = 237 then 128 ≤ c1 && c1 ≤ 159
             else isUtf8Cont c1) && isUtf8Cont c2 && validUtf8 t2
        | _ => false
      else if c ≤ 244 then
        match t with
        | c1 :: c2 :: c3 :: t3 =>
            (if c = 240 then 144 ≤ c1 && c1 ≤ 191
             else if c = 244 then 128 ≤ c1 && c1 ≤ 143
             else isUtf8Cont c1) && isUtf8Cont c2 && isUtf8Cont c3 && validUtf8 t3
        | _ => false
      else false

/-- `bytes.decode()` with strict UTF-8: validates and keeps the bytes (the
resulting `str` is represented by its UTF-8 bytes). -/
def pyDecodeStr (b : Bytes) : Except PyErr Bytes :=
  if validUtf8 b then .ok b else .error .unicodeDecodeError

def isHexByte (b : Nat) : Bool :=
  (48 ≤ b && b ≤ 57) || (65 ≤ b && b ≤ 70) || (97 ≤ b && b ≤ 102)

def hexVal (b : Nat) : Nat :=
  if b ≤ 57 then b - 48 else if b ≤ 70 then b - 55 else b - 87

/-- `urllib.parse.unquote`: percent-decoding at the byte level.  (For the
valid UTF-8 inputs exercised here this coincides with CPython, which
percent-decodes and re-decodes as UTF-8.) -/
def pyUnquote : Bytes → Bytes
  | 37 :: a :: b :: t =>
      if isHexByte a && isHexByte b then (hexVal a * 16 + hexVal b) :: pyUnquote t
      else 37 :: pyUnquote (a :: b :: t)
  | c :: t => c :: pyUnquote t
  | [] => []

def toLowerByte (b : Nat) : Nat := if 65 ≤ b && b ≤ 90 then b + 32 else b

/-- Codec-name normalisation as CPython codec lookup performs it
(case-insensitive, hyphen and space mapped to underscore). -/
def normCodec (s : Bytes) : Bytes :=
  s.map (fun b => if b = 45 || b = 32 then 95 else toLowerByte b)

def isUtf8Codec (s : Bytes) : Bool :=
  let n := normCodec s
  n = strBytes ("utf_8") || n = strBytes ("utf8") || n = strBytes ("utf") || n = strBytes ("u8")

/-- `filename.encode().decode(enc)`: for the UTF-8 codec family this is the
identity on the string (its UTF-8 bytes decode back to itself).  Other
codecs are not exercised by this repository and are left outside the model. -/
def pyReencode (encS : Bytes) (u : Bytes) : Except PyErr (Option Bytes) :=
  if isUtf8Codec encS then .ok (some u) else .error .unsupportedCodec

/-- Python truthiness of `groups["enc"]` (absent or empty bytes are falsy). -/
def encTruthy (g : DispGroups) : Bool :=
  match g.enc with
  | some e => e ≠ []
  | none => false

/-- Lines 149 to 151: `filename = groups["filename"] and
unquote(groups["filename"].decode())`, then re-decode via the declared
charset when `groups["enc"]` is truthy.  When the capture is empty bytes the
`and` short-circuits, `filename` stays `b""`, and a truthy `enc` would call
`.encode()` on bytes, an `AttributeError`. -/
def computeFilename (g : DispGroups) : Except PyErr (Option Bytes) :=
  match g.filename with
  | none => .ok none
  | some f =>
      if f = [] then
        if encTruthy g then .error .attributeError else .ok (some [])
      else
        match pyDecodeStr f with
        | .error e => .error e
        | .ok fs =>
            let u := pyUnquote fs
            if encTruthy g then
              match g.enc with
              | none => .ok (some u)
              | some enc =>
                  match pyDecodeStr enc with
                  | .error e => .error e
                  | .ok encS => pyReencode encS u
            else .ok (some u)

def ctLit : Bytes := strBytes ("Content-Type: ")

/-- `mime_type_regex.search(header_str)` and `mth and mth.group(1).decode()`:
the capture `(.*)` takes everything up to the next newline byte. -/
def mimeCompute (s : Bytes) : Except PyErr (Option Bytes) :=
  match bfind s ctLit with
  | none => .ok none
  | some i =>
      match pyDecodeStr ((s.drop (i + ctLit.length)).takeWhile (fun b => b != 10)) with
      | .error e => .error e
      | .ok m => .ok (some m)

/-- Lines 148 to 158 of `parse_headers`: regex search (a `None` match makes
`groupdict()` raise `AttributeError`), filename computation, `name` decode
(`None.decode()` is an `AttributeError`), mimetype, and `assert name`. -/
def parseHeaderFields (header_str : Bytes) :
    Except PyErr (Bytes × Option Bytes × Option Bytes) :=
  match dispositionSearch header_str with
  | none => .error .attributeError
  | some g =>
      match computeFilename g with
      | .error e => .error e
      | .ok filename =>
          match g.name with
          | none => .error .attributeError
          | some nb =>
              match pyDecodeStr nb with
              | .error e => .error e
              | .ok nm =>
                  match mimeCompute header_str with
                  | .error e => .error e
                  | .ok mimetype =>
                      if nm = [] then .error .assertionError
                      else .ok (nm, filename, mimetype)

def crlf2 : Bytes := [13, 10, 13, 10]

/-- `File.parse_headers` on the pending buffer: raises `StopAsyncIteration`
when `body.find(tmp_boundary) == body.find(end_boundary)` (which also holds
when both are `-1`), else slices off the boundary, splits the header block
at the first `\r\n\r\n` (with Python slice semantics when `find` is `-1`),
and parses the fields.  Returns the fields and the new pending buffer. -/
def parse_headers_core (tmp_boundary body : Bytes) :
    Except PyErr ((Bytes × Option Bytes × Option Bytes) × Bytes) :=
  let end_boundary := tmp_boundary ++ [45, 45]
  if pyfind body tmp_boundary = pyfind body end_boundary then .error .stopAsyncIteration
  else
    let body1 := pysliceFrom body (pyfind body tmp_boundary + (tmp_boundary.length : Int))
    let hEnd := pyfind body1 crlf2
    let header_str := pysliceTo body1 hEnd
    let body2 := pysliceFrom body1 (hEnd + 4)
    match parseHeaderFields header_str with
    | .error e => .error e
    | .ok trip => .ok (trip, body2)

/-- `File.parse_headers(stream, tmp_boundary)`, updating `stream.body`. -/
def parse_headers (tmp_boundary : Bytes) (st : StreamState) :
    Except PyErr ((Bytes × Option Bytes × Option Bytes) × StreamState) :=
  match parse_headers_core tmp_boundary st.body with
  | .error e => .error e
  | .ok q => .ok (q.1, { st with body := q.2 })

/-- The accumulation loop of `File.from_boundary`:
`while not stream.closed: get_message; if (b"\r\n\r\n" in body and
tmp_boundary in body) or stream.closed: break`. -/
def fromBoundaryLoop (tmp_boundary : Bytes) : Nat → StreamState → Option StreamState
  | 0, _ => none
  | fuel + 1, s =>
      if s.closed then some s
      else
        let s' := get_message s
        if (hasSub s'.body crlf2 && hasSub s'.body tmp_boundary) || s'.closed then some s'
        else fromBoundaryLoop tmp_boundary fuel s'

/-- `File.from_boundary(stream, receive, boundary)`: run the accumulation
loop with `tmp_boundary = b"--" + boundary`, then parse the headers.  The
returned stream carries the new pending buffer; a fresh `File` starts
iterating its body from `GenPos.top` with empty `_last` and zero `_size`. -/
def from_boundary (boundary : Bytes) (fuel : Nat) (s : StreamState) :
    Option (Except PyErr ((Bytes × Option Bytes × Option Bytes) × StreamState)) :=
  match fromBoundaryLoop ([45, 45] ++ boundary) fuel s with
  | none => none
  | some s' => some (parse_headers ([45, 45] ++ boundary) s')

/-- Initial `File` body-iteration state created by `File.__init__`. -/
def initFileState (s : StreamState) : FileState := ⟨s, [], 0, .top⟩

/-! ## `FileStream.__init__` and `cgi.parse_header`

The constructor reads the Content-Type header (defaulting to
`application/octet-stream`), parses it with `cgi.parse_header`, raises
`ValueError` unless the main value is exactly `multipart/form-data`, and
then reads `parameters["boundary"]` (a missing parameter is a `KeyError`).
No chunk is pulled from the transport: the constructor only stores the
receive callable.  Header text is modelled as `List Char`. -/

def isSpaceC (c : Char) : Bool :=
  (c == ' ') || (c == '\t') || (c == '\n') || (c == '\r') ||
  (c == Char.ofNat 11) || (c == Char.ofNat 12)

/-- Python `str.strip()` (ASCII whitespace suffices for header text). -/
def pyStrip (s : List Char) : List Char :=
  ((s.dropWhile isSpaceC).reverse.dropWhile isSpaceC).reverse

def chFindAux (c : Char) : List Char → Option Nat
  | [] => none
  | x :: t => if x = c then some 0 else (chFindAux c t).map (fun i => i + 1)

/-- Python `str.find(c, start)` with the `-1` convention. -/
def findCharFrom (s : List Char) (c : Char) (start : Nat) : Int :=
  match chFindAux c (s.drop start) with
  | some i => ((start + i : Nat) : Int)
  | none => -1

/-- Python `s.count(c, 0, stop)` for a single character. -/
def countCharTo (s : List Char) (c : Char) (stop : Nat) : Nat :=
  ((s.take stop).filter (fun x => x == c)).length

/-- Non-overlapping count of the two-character sequence `a b`. -/
def countPair (a b : Char) : List Char → Nat
  | x :: y :: t =>
      if x = a ∧ y = b then 1 + countPair a b t else countPair a b (y :: t)
  | _ => 0

/-- The quote-balancing loop of `cgi._parseparam`: advance `end` past any
`;` that lies inside an unbalanced double-quoted section. -/
def paramEnd (s : List Char) : Nat → Int → Int
  | 0, e => e
  | fuel + 1, e =>
      if 0 < e ∧ (countCharTo s '"' e.toNat - countPair '\\' '"' (s.take e.toNat)) % 2 = 1
      then paramEnd s fuel (findCharFrom s ';' (e.toNat + 1))
      else e

/-- `cgi._parseparam(s)`: repeatedly strip a leading `;`, take up to the
next quote-balanced `;`, and yield the stripped piece. -/
def parseparamLoop : Nat → List Char → List (List Char)
  | 0, _ => []
  | fuel + 1, s =>
      if s.head? = some ';' then
        let s1 := s.drop 1
        let e0 := paramEnd s1 (s1.length + 1) (findCharFrom s1 ';' 0)
        let e1 := if e0 < 0 then (s1.length : Int) else e0
        pyStrip (s1.take e1.toNat) :: parseparamLoop fuel (s1.drop e1.toNat)
      else []

/-- Insert-or-replace into the parameter dict (keyed, insertion order kept). -/
def dictSet : List (List Char × List Char) → List Char → List Char → List (List Char × List Char)
  | [], k, v => [(k, v)]
  | (k0, v0) :: t, k, v => if k0 = k then (k0, v) :: t else (k0, v0) :: dictSet t k v

def dictGet (d : List (List Char × List Char)) (k : List Char) : Option (List Char) :=
  match d.find? (fun p => p.1 == k) with
  | some p => some p.2
  | none => none

/-- Python `str.replace` for a two-character pattern replaced by one
character, left to right and non-overlapping. -/
def replacePair (a b c : Char) : List Char → List Char
  | x :: y :: t =>
      if x = a ∧ y = b then c :: replacePair a b c t else x :: replacePair a b c (y :: t)
  | s => s

/-- One parameter `p` of `cgi.parse_header`: split at the first `=`, strip
and lowercase the key, strip the value, remove a surrounding quote pair and
unescape `\\` and `\"`. -/
def addParam (acc : List (List Char × List Char)) (p : List Char) :
    List (List Char × List Char) :=
  let i := findCharFrom p '=' 0
  if 0 ≤ i then
    let nm := (pyStrip (p.take i.toNat)).map Char.toLower
    let v0 := pyStrip (p.drop (i.toNat + 1))
    let v :=
      if 2 ≤ v0.length ∧ v0.head? = some '"' ∧ v0.getLast? = some '"' then
        replacePair '\\' '"' '"' (replacePair '\\' '\\' '\\' (v0.drop 1).dropLast)
      else v0
    dictSet acc nm v
  else acc

/-- `cgi.parse_header(line)`: the main value and the parameter dict. -/
def parse_header (line : List Char) : List Char × List (List Char × List Char) :=
  match parseparamLoop (line.length + 2) (';' :: line) with
  | [] => ([], [])
  | key :: rest => (key, rest.foldl addParam [])

/-- `FileStream.__init__(request)`: `request` is abstracted to its optional
Content-Type header value.  On success returns the boundary bytes; the
chunk source is untouched either way. -/
def FileStream_init (hdr : Option String) : Except PyErr Bytes :=
  let pr := parse_header (hdr.getD ("application/octet-stream")).data
  if pr.1 = ("multipart/form-data").data then
    match dictGet pr.2 (("boundary").data) with
    | some b => .ok (b.flatMap utf8Encode)
    | none => .error .keyError
  else .error (.valueError ("Must be multipart/form-data"))

/-! ## Concrete fixtures -/

/-- Split a byte string into chunks of `n` bytes (first argument is fuel). -/
def chunksOf (n : Nat) : Nat → Bytes → List Bytes
  | 0, _ => []
  | _, [] => []
  | fuel + 1, l => l.take n :: chunksOf n fuel (l.drop n)

/-- The wire body of the specification scenario: boundary `abc123`, a part
`name="field"` with content `hello`, a part `name="upload";
filename="a.txt"` with content `hello world`, then the terminal boundary. -/
def c1Body : String :=
  "--abc123\r\nContent-Disposition: form-data; name=\"field\"\r\n\r\nhello\r\n--abc123\r\nContent-Disposition: form-data; name=\"upload\"; filename=\"a.txt\"\r\n\r\nhello world\r\n--abc123--\r\n"

def c1Boundary : Bytes := strBytes ("abc123")

def c1Cfg : FileCfg := mkFileCfg c1Boundary

/-- The scenario body delivered in 3-byte chunks. -/
def c1Chunks : List Bytes := chunksOf 3 300 (strBytes c1Body)

/-- Drain a part by raw iteration and join the yielded chunks. -/
def drainIterJoin (cfg : FileCfg) (fuel : Nat) (st : FileState) :
    Option (Bytes × StreamState) :=
  match iterAll cfg fuel st with
  | none => none
  | some q =>
      match q.2.1 with
      | .ok _ => some (joinL q.1, q.2.2.stream)
      | .error _ => none

/-- Drain a plain-field part with one `read()` at the default size 10240,
as the `FileStream` docstring does for parts without a filename. -/
def readOnce (cfg : FileCfg) (fuel : Nat) (st : FileState) :
    Option (Bytes × StreamState) :=
  match pyRead cfg fuel 10240 st with
  | none => none
  | some q =>
      match q.1 with
      | .ok r => some (r, q.2.stream)
      | .error _ => none

/-- The scenario runs as three `__anext__` calls on the `FileStream`; the
first part is drained with `read()`, the second by chunk iteration; the
third call must end with `StopAsyncIteration`.  The intermediate stream
states are pinned explicitly: `c1S0` is the fresh stream, and `c1S1` to
`c1S4` are the states after each stage (chunks consumed from the front,
with the listed pending bytes). -/
def c1S0 : StreamState := ⟨c1Chunks, [], false⟩

/-- Stream state after the first header parse: 20 chunks pulled, the
pending buffer holds the first two body bytes. -/
def c1S1 : StreamState := ⟨c1Chunks.drop 20, strBytes ("he"), false⟩

/-- Stream state after the first part is drained by `read()`. -/
def c1S2 : StreamState := ⟨c1Chunks.drop 25, strBytes ("\r\n--abc123\r\n"), false⟩

/-- Stream state after the second header parse. -/
def c1S3 : StreamState := ⟨c1Chunks.drop 48, strBytes ("he"), false⟩

/-- Stream state after the second part is drained by iteration. -/
def c1S4 : StreamState := ⟨c1Chunks.drop 55, strBytes ("\r\n--abc123--"), false⟩

/-- Failing input for the read adapter: a part whose 11-byte body
`hello world` is already fully buffered (terminal boundary follows), read
with `size = 4`. -/
def c2State : FileState :=
  initFileState ⟨[], strBytes ("hello world\r\n--abc123--\r\n"), false⟩

/-- A truncated stream that never contains the boundary: one chunk of
junk, then end-of-input. -/
def c3Stream : StreamState := ⟨[strBytes ("junk")], [], false⟩

/-- Wire body for the RFC 2231 filename claim: one part whose
Content-Disposition carries `filename*=UTF-8` followed by two single
quotes and the percent-encoded UTF-8 name `%e4%bd%a0.txt`. -/
def f8Body : Bytes :=
  (strBytes ("--abc123\r\nContent-Disposition: form-data; name=\"up\"; filename*=UTF-8"))
    ++ [39, 39] ++ (strBytes ("%e4%bd%a0.txt\r\n\r\nx\r\n--abc123--"))

def tmpB8 : Bytes := [45, 45] ++ strBytes ("abc123")

/-- The break condition of the `from_boundary` loop for boundary `abc123`. -/
def condB8 (b : Bytes) : Bool := hasSub b crlf2 && hasSub b tmpB8

/-- The filename the scanner must extract: UTF-8 bytes of the two-character
name `你.txt` would be, precisely `[228, 189, 160, 46, 116, 120, 116]`. -/
def fn8 : Bytes := [228, 189, 160, 46, 116, 120, 116]

/-- Name, filename and mimetype produced by `parse_headers` on a buffer. -/
def parseFields8 (b : Bytes) : Except PyErr (Bytes × Option Bytes × Option Bytes) :=
  match parse_headers_core tmpB8 b with
  | .error e => .error e
  | .ok q => .ok q.1

/-! ## Search lemmas -/

theorem bfind_eq_none_iff {l p : Bytes} : bfind l p = none ↔ ¬ p <:+: l := by
  induction l with
  | nil =>
      rw [bfind]
      by_cases hp : p.isPrefixOf ([] : Bytes)
      · rw [List.isPrefixOf_iff_prefix] at hp
        simp [hp, List.IsPrefix.isInfix hp]
      · rw [List.isPrefixOf_iff_prefix] at hp
        simp only [hp, if_false, List.infix_nil]
        simp only [List.prefix_nil] at hp
        simp [hp]
  | cons a t ih =>
      rw [bfind]
      by_cases hp : p.isPrefixOf (a :: t)
      · rw [List.isPrefixOf_iff_prefix] at hp
        simp [hp, List.IsPrefix.isInfix hp]
      · have hp' := hp
        rw [List.isPrefixOf_iff_prefix] at hp'
        simp only [hp, if_false, List.infix_cons_iff, not_or, Option.map_eq_none']
        simp [ih, hp']

theorem hasSub_eq_false_iff {l p : Bytes} : hasSub l p = false ↔ ¬ p <:+: l := by
  rw [hasSub, ← bfind_eq_none_iff]
  cases bfind l p <;> simp

theorem bfind_none_of_not_infix {l p : Bytes} (h : ¬ p <:+: l) : bfind l p = none :=
  bfind_eq_none_iff.mpr h

/-- If a pattern does not occur in a list it does not occur in any
contiguous piece of it. -/
theorem bfind_none_of_infix {l m p : Bytes} (hm : m <:+: l) (h : bfind l p = none) :
    bfind m p = none :=
  bfind_none_of_not_infix (fun hi => (bfind_eq_none_iff.mp h) (hi.trans hm))

/-- Absence of the plain boundary implies absence of the end boundary. -/
theorem bfind_end_none {l p : Bytes} (h : bfind l p = none) :
    bfind l (p ++ [45, 45]) = none :=
  bfind_none_of_not_infix (fun hi =>
    (bfind_eq_none_iff.mp h) ((List.prefix_append p [45, 45]).isInfix.trans hi))

theorem suffix_append_of_suffix {l₁ l₂ t : Bytes} (h : l₁ <:+ l₂) : l₁ ++ t <:+ l₂ ++ t := by
  obtain ⟨u, hu⟩ := h
  exact ⟨u, by rw [← hu, List.append_assoc]⟩

/-! ## Claim theorems -/

/-- Claim C1: with boundary abc123 and the two-part body delivered in
3-byte chunks, the decoder yields first a part named field with no
filename whose body reads to hello, then a part named upload with
filename a.txt whose body iterates to hello world, and the third request
for a part ends cleanly with StopAsyncIteration.  The five conjuncts are
the five pipeline stages, chained through the pinned stream states. -/
theorem C1_three_byte_scenario :
    from_boundary c1Boundary 200 c1S0
        = some (.ok ((strBytes ("field"), none, none), c1S1))
    ∧ readOnce c1Cfg 300 (initFileState c1S1) = some (strBytes ("hello"), c1S2)
    ∧ from_boundary c1Boundary 200 c1S2
        = some (.ok ((strBytes ("upload"), some (strBytes ("a.txt")), none), c1S3))
    ∧ drainIterJoin c1Cfg 300 (initFileState c1S3)
        = some (strBytes ("hello world"), c1S4)
    ∧ from_boundary c1Boundary 200 c1S4 = some (.error .stopAsyncIteration) :=
  ⟨rfl, rfl, rfl, rfl, rfl⟩

/-- Claim C2 is violated by the code: reading the 11-byte body
hello world with size 4 returns hell and o wo and then the empty result,
silently dropping the final three bytes rld (they are left in _last when
the generator finishes).  The concatenation of all returned reads is not
the body. -/
theorem C2_read_adapter_drops_tail :
    readAll (mkFileCfg (strBytes ("abc123"))) 20 4 c2State
        = some [strBytes ("hell"), strBytes ("o wo")]
    ∧ joinL [strBytes ("hell"), strBytes ("o wo")] ≠ strBytes ("hello world") := by
  exact ⟨rfl, by decide⟩

/-- Claim C3 as stated is false: a closed buffer with no boundary makes
the scanner end iteration cleanly (StopAsyncIteration), because
body.find(tmp_boundary) and body.find(end_boundary) are both -1 and
therefore equal.  Concretely, a stream delivering only the bytes junk and
then end-of-input. -/
theorem C3_counterexample :
    from_boundary (strBytes ("abc123")) 5 c3Stream
      = some (.error .stopAsyncIteration) := by
  rfl

/-- Claim C3, amended: when the buffer is closed and the boundary marker
is absent from the pending buffer, scanning for the next part signals a
clean end of iteration (StopAsyncIteration), not an incomplete-content
error. -/
theorem C3_closed_no_boundary_stops (fuel : Nat) (boundary : Bytes) (s : StreamState)
    (hc : s.closed = true) (hb : bfind s.body ([45, 45] ++ boundary) = none) :
    from_boundary boundary (fuel + 1) s = some (.error .stopAsyncIteration) := by
  have hend : bfind s.body (([45, 45] ++ boundary) ++ [45, 45]) = none := bfind_end_none hb
  have hb' : bfind s.body (45 :: 45 :: boundary) = none := by simpa using hb
  have hend' : bfind s.body (45 :: 45 :: (boundary ++ [45, 45])) = none := by
    simpa using hend
  unfold from_boundary fromBoundaryLoop
  rw [hc]
  simp [parse_headers, parse_headers_core, pyfind, hb', hend']

/-- Witness for the amended C3 at a concrete closed stream. -/
theorem C3_closed_no_boundary_stops_witness :
    (⟨[], strBytes ("junk"), true⟩ : StreamState).closed = true
    ∧ bfind (strBytes ("junk")) ([45, 45] ++ strBytes ("abc123")) = none
    ∧ from_boundary (strBytes ("abc123")) 1 ⟨[], strBytes ("junk"), true⟩
        = some (.error .stopAsyncIteration) :=
  ⟨rfl, by decide,
    C3_closed_no_boundary_stops 0 (strBytes ("abc123")) ⟨[], strBytes ("junk"), true⟩ rfl (by decide)⟩

/-- Claim C5: in every generator step at the loop head where the marker
CRLF--boundary is found at offset i in the pending buffer, the step yields
pending[0:i], gives pending[i:] back to the stream (boundary bytes kept
for the next header scan), moves to the finishing branch, and the
following step stops the sequence. -/
theorem C5_boundary_found_step (boundary : Bytes) (st : FileState) (i : Nat)
    (hpos : st.pos = .top) (hlast : st.lastB = [])
    (hfind : bfind st.stream.body (mkTmpBoundary boundary) = some i) :
    genNext (mkFileCfg boundary) st =
      (.yielded (st.stream.body.take i),
       { st with
           stream := { st.stream with body := st.stream.body.drop i },
           sizeB := st.sizeB + (st.stream.body.take i).length,
           pos := .finishing })
    ∧ (genNext (mkFileCfg boundary) (genNext (mkFileCfg boundary) st).2).1 = .stopped := by
  obtain ⟨⟨cks, body, cl⟩, last, size, pos⟩ := st
  simp only at hpos hlast hfind
  subst hpos hlast
  refine ⟨?_, ?_⟩ <;> simp [genNext, topStep, mkFileCfg, hfind]

/-- Witness for C5 at a concrete state with the boundary at offset 2. -/
theorem C5_boundary_found_step_witness :
    bfind (strBytes ("ab\r\n--abc123xyz")) (mkTmpBoundary (strBytes ("abc123"))) = some 2
    ∧ (genNext (mkFileCfg (strBytes ("abc123")))
        (initFileState ⟨[], strBytes ("ab\r\n--abc123xyz"), false⟩)).1
        = .yielded (strBytes ("ab")) := by
  refine ⟨by decide, ?_⟩
  rw [(C5_boundary_found_step (strBytes ("abc123"))
        (initFileState ⟨[], strBytes ("ab\r\n--abc123xyz"), false⟩) 2 rfl rfl (by decide)).1]
  rfl

/-- Claim C4: in every generator step at the loop head where the marker is
not found and the stream is not closed, the step yields all but the final
boundary_len bytes of the pending buffer, retains exactly those final
bytes as the new pending buffer (never more than boundary_len bytes, and
together with the yield exactly the old buffer), suspends before pulling
the next chunk, boundary_len is exactly the byte length of
CRLF--boundary, and the marker does not occur in the yielded bytes. -/
theorem C4_boundary_absent_step (boundary : Bytes) (st : FileState)
    (hpos : st.pos = .top) (hlast : st.lastB = [])
    (hfind : bfind st.stream.body (mkTmpBoundary boundary) = none)
    (hcl : st.stream.closed = false) :
    genNext (mkFileCfg boundary) st =
      (.yielded (st.stream.body.take
          (st.stream.body.length - (mkFileCfg boundary).boundary_len)),
       { st with
           stream := { st.stream with
             body := st.stream.body.drop
               (st.stream.body.length - (mkFileCfg boundary).boundary_len) },
           sizeB := st.sizeB + (st.stream.body.take
               (st.stream.body.length - (mkFileCfg boundary).boundary_len)).length,
           pos := .pulling })
    ∧ (st.stream.body.drop
          (st.stream.body.length - (mkFileCfg boundary).boundary_len)).length
        ≤ (mkFileCfg boundary).boundary_len
    ∧ st.stream.body.take (st.stream.body.length - (mkFileCfg boundary).boundary_len)
        ++ st.stream.body.drop (st.stream.body.length - (mkFileCfg boundary).boundary_len)
        = st.stream.body
    ∧ (mkFileCfg boundary).boundary_len = (mkTmpBoundary boundary).length
    ∧ bfind (st.stream.body.take
          (st.stream.body.length - (mkFileCfg boundary).boundary_len))
        (mkTmpBoundary boundary) = none := by
  obtain ⟨⟨cks, body, cl⟩, last, size, pos⟩ := st
  simp only at hpos hlast hfind hcl
  subst hpos hlast hcl
  refine ⟨?_, ?_, ?_, ?_, ?_⟩
  · simp [genNext, topStep, mkFileCfg, hfind]
  · simp only [List.length_drop]
    omega
  · exact List.take_append_drop _ _
  · rfl
  · exact bfind_none_of_infix (List.take_prefix _ _).isInfix hfind

/-- Witness for C4 at a concrete state holding part of a split boundary. -/
theorem C4_boundary_absent_step_witness :
    bfind (strBytes ("hello world!\r\n--abc")) (mkTmpBoundary (strBytes ("abc123"))) = none
    ∧ (genNext (mkFileCfg (strBytes ("abc123")))
        (initFileState ⟨[strBytes ("123")], strBytes ("hello world!\r\n--abc"), false⟩)).1
        = .yielded (strBytes ("hello wor")) := by
  refine ⟨by decide, ?_⟩
  rw [(C4_boundary_absent_step (strBytes ("abc123"))
        (initFileState ⟨[strBytes ("123")], strBytes ("hello world!\r\n--abc"), false⟩)
        rfl rfl (by decide) rfl).1]
  decide

/-- Claim C10: whenever a generator step at the loop head finds no marker
while the pending buffer holds at most boundary_len bytes (and the stream
is open), the step yields an empty chunk and suspends before pulling more
input, with the chunk source untouched by the step: an empty yielded chunk
is therefore not an end-of-body signal. -/
theorem C10_short_pending_yields_empty (boundary : Bytes) (st : FileState)
    (hpos : st.pos = .top) (hlast : st.lastB = [])
    (hfind : bfind st.stream.body (mkTmpBoundary boundary) = none)
    (hcl : st.stream.closed = false)
    (hlen : st.stream.body.length ≤ (mkFileCfg boundary).boundary_len) :
    (genNext (mkFileCfg boundary) st).1 = .yielded []
    ∧ (genNext (mkFileCfg boundary) st).2.pos = .pulling
    ∧ (genNext (mkFileCfg boundary) st).2.stream.chunks = st.stream.chunks := by
  obtain ⟨⟨cks, body, cl⟩, last, size, pos⟩ := st
  simp only at hpos hlast hfind hcl hlen
  subst hpos hlast hcl
  have hz : body.length - (mkFileCfg boundary).boundary_len = 0 := Nat.sub_eq_zero_of_le hlen
  refine ⟨?_, ?_, ?_⟩
  · simp [genNext, topStep, mkFileCfg, hfind, hz]
    exact Or.inl hz
  · simp [genNext, topStep, mkFileCfg, hfind, hz]
  · simp [genNext, topStep, mkFileCfg, hfind, hz]

/-- Witness for C10: a three-byte open buffer yields an empty chunk. -/
theorem C10_short_pending_yields_empty_witness :
    bfind (strBytes ("hel")) (mkTmpBoundary (strBytes ("abc123"))) = none
    ∧ (strBytes ("hel")).length ≤ (mkFileCfg (strBytes ("abc123"))).boundary_len
    ∧ (genNext (mkFileCfg (strBytes ("abc123")))
        (initFileState ⟨[strBytes ("lo!")], strBytes ("hel"), false⟩)).1 = .yielded [] := by
  refine ⟨by decide, by decide, ?_⟩
  exact (C10_short_pending_yields_empty (strBytes ("abc123"))
      (initFileState ⟨[strBytes ("lo!")], strBytes ("hel"), false⟩)
      rfl rfl (by decide) rfl (by decide)).1

/-- Claim C6: for every request whose Content-Type header does not parse
to exactly multipart/form-data with a boundary parameter, constructing the
decoder fails (ValueError for a wrong media type, KeyError for a missing
boundary parameter; these are the content-type errors of the design)
before any chunk is read: the constructor never touches the chunk source. -/
theorem C6_bad_content_type_rejected (hdr : Option String)
    (h : (parse_header (hdr.getD ("application/octet-stream")).data).1
            ≠ ("multipart/form-data").data
       ∨ dictGet (parse_header (hdr.getD ("application/octet-stream")).data).2
            (("boundary").data) = none) :
    ∃ e, FileStream_init hdr = .error e
      ∧ (e = .valueError ("Must be multipart/form-data") ∨ e = .keyError) := by
  unfold FileStream_init
  rcases h with h | h
  · exact ⟨.valueError ("Must be multipart/form-data"), by simp [h], Or.inl rfl⟩
  · by_cases hm : (parse_header (hdr.getD ("application/octet-stream")).data).1
        = ("multipart/form-data").data
    · exact ⟨.keyError, by simp [hm, h], Or.inr rfl⟩
    · exact ⟨.valueError ("Must be multipart/form-data"), by simp [hm], Or.inl rfl⟩

/-- Witness for C6 at the two Content-Type values named by the claim:
application/json, and multipart/form-data with no boundary parameter. -/
theorem C6_bad_content_type_rejected_witness :
    ((parse_header (("application/json").data)).1 ≠ ("multipart/form-data").data
      ∧ ∃ e, FileStream_init (some ("application/json")) = .error e
          ∧ (e = .valueError ("Must be multipart/form-data") ∨ e = .keyError))
    ∧ (dictGet (parse_header (("multipart/form-data").data)).2 (("boundary").data) = none
      ∧ ∃ e, FileStream_init (some ("multipart/form-data")) = .error e
          ∧ (e = .valueError ("Must be multipart/form-data") ∨ e = .keyError)) :=
  ⟨⟨by decide, C6_bad_content_type_rejected (some ("application/json")) (Or.inl (by decide))⟩,
   ⟨by decide, C6_bad_content_type_rejected (some ("multipart/form-data")) (Or.inr (by decide))⟩⟩

/-- The disposition groups of a header block lack a usable name: the regex
search failed, or the name group did not participate, or it captured the
empty string. -/
def nameMissing (hs : Bytes) : Bool :=
  ((dispositionSearch hs).map
    (fun g => decide (g.name = none ∨ g.name = some []))).getD true

/-- Claim C9: every header block without a usable Content-Disposition name
makes the field parser raise (the protocol error of the design: an
AttributeError from the failed match or absent group, or the
assert-name failure, or a decode error raised on the way); and a part
with an empty name is never returned. -/
theorem C9_missing_name_rejected :
    (∀ hs : Bytes, nameMissing hs = true → ∃ e, parseHeaderFields hs = .error e)
    ∧ (∀ (hs nm : Bytes) (fn mt : Option Bytes),
        parseHeaderFields hs = .ok (nm, fn, mt) → nm ≠ []) := by
  constructor
  · intro hs h
    unfold parseHeaderFields
    split
    · exact ⟨.attributeError, rfl⟩
    next g hd =>
      have hnm : g.name = none ∨ g.name = some [] := by
        have h2 := h
        unfold nameMissing at h2
        rw [hd] at h2
        simpa using h2
      split
      next e hcf => exact ⟨e, rfl⟩
      next fn0 hcf =>
        split
        next hn => exact ⟨.attributeError, rfl⟩
        next nb hn =>
          have hnb : nb = [] := by
            rcases hnm with h3 | h3 <;> rw [h3] at hn <;> simp_all
          subst hnb
          split
          next e hdec => exact ⟨e, rfl⟩
          next nm0 hdec =>
            have hnm0 : nm0 = [] := by
              have he : pyDecodeStr ([] : Bytes) = Except.ok ([] : Bytes) := rfl
              rw [he] at hdec
              exact ((Except.ok.injEq _ _).mp hdec).symm
            subst hnm0
            split
            next e hm => exact ⟨e, rfl⟩
            next mt0 hm => exact ⟨.assertionError, by simp⟩
  · intro hs nm fn mt h
    unfold parseHeaderFields at h
    repeat' split at h
    all_goals simp_all

/-- Witness for C9 at a header block whose disposition has no name. -/
theorem C9_missing_name_rejected_witness :
    nameMissing (strBytes ("Content-Disposition: form-data;")) = true
    ∧ ∃ e, parseHeaderFields (strBytes ("Content-Disposition: form-data;")) = .error e :=
  ⟨by decide, C9_missing_name_rejected.1 (strBytes ("Content-Disposition: form-data;")) (by decide)⟩

/-- Unfolding lemma: one yielded generator step prepends its chunk to the
iteration result. -/
theorem iterAll_yield_step (cfg : FileCfg) (fuel : Nat) (st st2 st' : FileState)
    (b : Bytes) (ys : List Bytes) (r : Except PyErr Unit)
    (h1 : genNext cfg st = (.yielded b, st2))
    (h2 : iterAll cfg fuel st2 = some (ys, r, st')) :
    iterAll cfg (fuel + 1) st = some (b :: ys, r, st') := by
  simp [iterAll, h1, h2]

/-- Unfolding lemma: a raising generator step ends the iteration with that
error. -/
theorem iterAll_failed_step (cfg : FileCfg) (fuel : Nat) (st st2 : FileState) (e : PyErr)
    (h1 : genNext cfg st = (.failed e, st2)) :
    iterAll cfg (fuel + 1) st = some ([], .error e, st2) := by
  simp [iterAll, h1]

/-- If the boundary marker never occurs in the remaining input, iterating
the generator from the chunk-pulling suspension point ends in the
RuntimeError raised when the stream closes without a boundary. -/
theorem iter_error_pulling (boundary : Bytes) :
    ∀ (cs : List Bytes) (body : Bytes) (cl : Bool) (sz : Nat),
      ¬ (mkTmpBoundary boundary) <:+: (body ++ joinL cs) →
      ∃ ys st', iterAll (mkFileCfg boundary) (cs.length + 2)
          ⟨⟨cs, body, cl⟩, [], sz, .pulling⟩
          = some (ys, .error (.runtimeError ("Uncomplete content!")), st') := by
  intro cs
  induction cs with
  | nil =>
      intro body cl sz h
      have hb : bfind body (mkTmpBoundary boundary) = none := by
        apply bfind_none_of_not_infix
        intro hi
        exact h (by simpa [joinL] using hi)
      have hg : genNext (mkFileCfg boundary) ⟨⟨[], body, cl⟩, [], sz, .pulling⟩
          = (.failed (.runtimeError ("Uncomplete content!")),
             ⟨⟨[], body, true⟩, [], sz, .done⟩) := by
        simp [genNext, get_message, topStep, mkFileCfg, hb]
      exact ⟨[], _, iterAll_failed_step _ _ _ _ _ hg⟩
  | cons c rest ih =>
      intro body cl sz h
      by_cases hc : c = []
      · subst hc
        have hb : bfind body (mkTmpBoundary boundary) = none := by
          apply bfind_none_of_not_infix
          intro hi
          exact h (hi.trans (List.prefix_append _ _).isInfix)
        have hg : genNext (mkFileCfg boundary) ⟨⟨[] :: rest, body, cl⟩, [], sz, .pulling⟩
            = (.failed (.runtimeError ("Uncomplete content!")),
               ⟨⟨rest, body, true⟩, [], sz, .done⟩) := by
          simp [genNext, get_message, topStep, mkFileCfg, hb]
        exact ⟨[], _, iterAll_failed_step _ _ _ _ _ hg⟩
      · have hb : bfind (body ++ c) (mkTmpBoundary boundary) = none := by
          apply bfind_none_of_not_infix
          intro hi
          apply h
          have hpre : (body ++ c) <+: (body ++ joinL (c :: rest)) := by
            simp only [joinL, ← List.append_assoc]
            exact List.prefix_append _ _
          exact hi.trans hpre.isInfix
        cases cl with
        | true =>
            have hg : genNext (mkFileCfg boundary) ⟨⟨c :: rest, body, true⟩, [], sz, .pulling⟩
                = (.failed (.runtimeError ("Uncomplete content!")),
                   ⟨⟨rest, body ++ c, true⟩, [], sz, .done⟩) := by
              simp [genNext, get_message, topStep, mkFileCfg, hc, hb]
            exact ⟨[], _, iterAll_failed_step _ _ _ _ _ hg⟩
        | false =>
            have hstep : ∀ k : Nat,
                ¬ (mkTmpBoundary boundary) <:+: (((body ++ c).drop k) ++ joinL rest) := by
              intro k hi
              apply h
              have hsuf : ((body ++ c).drop k) ++ joinL rest <:+ (body ++ c) ++ joinL rest :=
                suffix_append_of_suffix (List.drop_suffix _ _)
              have hinf : (mkTmpBoundary boundary) <:+: ((body ++ c) ++ joinL rest) :=
                hi.trans hsuf.isInfix
              simpa [joinL, List.append_assoc] using hinf
            obtain ⟨ys, st', hys⟩ := ih
              ((body ++ c).drop ((body ++ c).length - (mkFileCfg boundary).boundary_len))
              false
              (sz + ((body ++ c).take
                ((body ++ c).length - (mkFileCfg boundary).boundary_len)).length)
              (hstep _)
            have hg : genNext (mkFileCfg boundary) ⟨⟨c :: rest, body, false⟩, [], sz, .pulling⟩
                = (.yielded ((body ++ c).take
                      ((body ++ c).length - (mkFileCfg boundary).boundary_len)),
                   ⟨⟨rest, (body ++ c).drop
                        ((body ++ c).length - (mkFileCfg boundary).boundary_len), false⟩,
                    [], sz + ((body ++ c).take
                        ((body ++ c).length - (mkFileCfg boundary).boundary_len)).length,
                    .pulling⟩) := by
              simp [genNext, get_message, topStep, mkFileCfg, hc, hb]
            exact ⟨(body ++ c).take
                ((body ++ c).length - (mkFileCfg boundary).boundary_len) :: ys, st',
              iterAll_yield_step _ _ _ _ _ _ _ _ hg hys⟩

/-- Claim C7: for every part body where the input ends before the marker
CRLF--boundary ever appears, iterating the body generator raises the
incomplete-stream RuntimeError instead of ending the sequence cleanly. -/
theorem C7_truncated_body_raises (boundary : Bytes) (s : StreamState) (sz : Nat)
    (h : hasSub (s.body ++ joinL s.chunks) (mkTmpBoundary boundary) = false) :
    ∃ ys st', iterAll (mkFileCfg boundary) (s.chunks.length + 3) ⟨s, [], sz, .top⟩
        = some (ys, .error (.runtimeError ("Uncomplete content!")), st') := by
  obtain ⟨cks, body, cl⟩ := s
  simp only at h
  rw [hasSub_eq_false_iff] at h
  have hb : bfind body (mkTmpBoundary boundary) = none :=
    bfind_none_of_not_infix (fun hi => h (hi.trans (List.prefix_append _ _).isInfix))
  cases cl with
  | true =>
      have hg : genNext (mkFileCfg boundary) ⟨⟨cks, body, true⟩, [], sz, .top⟩
          = (.failed (.runtimeError ("Uncomplete content!")),
             ⟨⟨cks, body, true⟩, [], sz, .done⟩) := by
        simp [genNext, topStep, mkFileCfg, hb]
      exact ⟨[], _, iterAll_failed_step _ _ _ _ _ hg⟩
  | false =>
      have hstep : ¬ (mkTmpBoundary boundary) <:+:
          ((body.drop (body.length - (mkFileCfg boundary).boundary_len)) ++ joinL cks) := by
        intro hi
        apply h
        have hsuf : (body.drop (body.length - (mkFileCfg boundary).boundary_len)) ++ joinL cks
            <:+ body ++ joinL cks :=
          suffix_append_of_suffix (List.drop_suffix _ _)
        exact hi.trans hsuf.isInfix
      obtain ⟨ys, st', hys⟩ := iter_error_pulling boundary cks
        (body.drop (body.length - (mkFileCfg boundary).boundary_len)) false
        (sz + (body.take (body.length - (mkFileCfg boundary).boundary_len)).length) hstep
      have hg : genNext (mkFileCfg boundary) ⟨⟨cks, body, false⟩, [], sz, .top⟩
          = (.yielded (body.take (body.length - (mkFileCfg boundary).boundary_len)),
             ⟨⟨cks, body.drop (body.length - (mkFileCfg boundary).boundary_len), false⟩,
              [], sz + (body.take (body.length - (mkFileCfg boundary).boundary_len)).length,
              .pulling⟩) := by
        simp [genNext, topStep, mkFileCfg, hb]
      exact ⟨body.take (body.length - (mkFileCfg boundary).boundary_len) :: ys, st',
        iterAll_yield_step _ _ _ _ _ _ _ _ hg hys⟩

/-- Witness for C7: a body whose terminal boundary never arrives. -/
theorem C7_truncated_body_raises_witness :
    hasSub (strBytes ("hello") ++ joinL [strBytes (" wor"), strBytes ("ld")])
        (mkTmpBoundary (strBytes ("abc123"))) = false
    ∧ ∃ ys st', iterAll (mkFileCfg (strBytes ("abc123"))) 5
        ⟨⟨[strBytes (" wor"), strBytes ("ld")], strBytes ("hello"), false⟩, [], 0, .top⟩
        = some (ys, .error (.runtimeError ("Uncomplete content!")), st') :=
  ⟨by decide,
    C7_truncated_body_raises (strBytes ("abc123"))
      ⟨[strBytes (" wor"), strBytes ("ld")], strBytes ("hello"), false⟩ 0 (by decide)⟩

/-! ## Claim C8: the RFC 2231 filename under arbitrary fragmentation -/

/-- Boolean form of: parsing the buffer yields name up, the UTF-8 decoded
percent-encoded filename, and no mimetype. -/
def fields8Ok (b : Bytes) : Bool :=
  match parseFields8 b with
  | .error _ => false
  | .ok t => decide (t = (strBytes ("up"), some fn8, none))

/-- Aggregate check: every prefix of the wire body on which the
`from_boundary` loop can stop parses to the same part fields. -/
def check8 : Bool :=
  (List.range (f8Body.length + 1)).all
    (fun n => !(condB8 (f8Body.take n)) || fields8Ok (f8Body.take n))

theorem check8_true : check8 = true := by rfl

theorem fields8Ok_iff {b : Bytes} :
    fields8Ok b = true ↔ parseFields8 b = .ok (strBytes ("up"), some fn8, none) := by
  unfold fields8Ok
  cases h : parseFields8 b <;> simp [h]

/-- Header parsing of the fixed wire body is fragmentation-stable: on every
prefix satisfying the loop break condition it produces the same fields. -/
theorem parse8_stable (n : Nat) (hn : n ≤ f8Body.length)
    (hcond : condB8 (f8Body.take n) = true) :
    parseFields8 (f8Body.take n) = .ok (strBytes ("up"), some fn8, none) := by
  have hall := check8_true
  unfold check8 at hall
  rw [List.all_eq_true] at hall
  have hx := hall n (List.mem_range.mpr (by omega))
  simp only [hcond, Bool.not_true, Bool.false_or] at hx
  exact fields8Ok_iff.mp hx

/-- Unfolding lemma for one non-breaking iteration of the `from_boundary`
accumulation loop. -/
theorem fbLoop_cont_step (tmp : Bytes) (fuel : Nat) (s s2 : StreamState)
    (r : Option StreamState)
    (hclosed : s.closed = false)
    (hmsg : get_message s = s2)
    (hcond : (hasSub s2.body crlf2 && hasSub s2.body tmp) = false)
    (hcl2 : s2.closed = false)
    (hrec : fromBoundaryLoop tmp fuel s2 = r) :
    fromBoundaryLoop tmp (fuel + 1) s = r := by
  simp [fromBoundaryLoop, hclosed, hmsg, hcond, hcl2, hrec]

/-- The `from_boundary` accumulation loop over any fragmentation of the
fixed wire body into non-empty chunks stops with the pending buffer equal
to some prefix of the body satisfying the break condition (the full body
counts via the closed branch, and its condition holds). -/
theorem fbLoop8 : ∀ (cs : List Bytes) (acc : Bytes),
    (∀ c ∈ cs, c ≠ []) → acc ++ joinL cs = f8Body →
    ∃ n, n ≤ f8Body.length ∧ condB8 (f8Body.take n) = true ∧
      ∃ cks cl, fromBoundaryLoop tmpB8 (cs.length + 1) ⟨cs, acc, false⟩
          = some ⟨cks, f8Body.take n, cl⟩ := by
  intro cs
  induction cs with
  | nil =>
      intro acc hne hacc
      have hacc2 : acc = f8Body := by simpa [joinL] using hacc
      subst hacc2
      refine ⟨f8Body.length, le_refl _, ?_, [], true, ?_⟩
      · rw [List.take_length]
        decide
      · rw [List.take_length]
        simp [fromBoundaryLoop, get_message]
  | cons c rest ih =>
      intro acc hne hacc
      have hcne : c ≠ [] := hne c (List.mem_cons_self _ _)
      have hacc2 : (acc ++ c) ++ joinL rest = f8Body := by
        rw [List.append_assoc]
        simpa [joinL] using hacc
      have htake : f8Body.take (acc ++ c).length = acc ++ c := by
        rw [← hacc2]
        exact List.take_left _ _
      by_cases hcond : condB8 (acc ++ c) = true
      · refine ⟨(acc ++ c).length, ?_, ?_, rest, false, ?_⟩
        · rw [← hacc2]
          simp only [List.length_append]
          omega
        · rw [htake]
          exact hcond
        · rw [htake]
          have hcond2 : (hasSub (acc ++ c) crlf2 && hasSub (acc ++ c) tmpB8) = true := by
            simpa [condB8] using hcond
          simp [fromBoundaryLoop, get_message, hcne, hcond2]
      · obtain ⟨n, hn1, hn2, cks, cl, hloop⟩ :=
          ih (acc ++ c) (fun x hx => hne x (List.mem_cons_of_mem _ hx)) hacc2
        refine ⟨n, hn1, hn2, cks, cl, ?_⟩
        have hcond2 : (hasSub (acc ++ c) crlf2 && hasSub (acc ++ c) tmpB8) = false := by
          have hf : condB8 (acc ++ c) = false := Bool.not_eq_true _ |>.mp hcond
          simpa [condB8] using hf
        have hmsg : get_message ⟨c :: rest, acc, false⟩ = ⟨rest, acc ++ c, false⟩ := by
          simp [get_message, hcne]
        exact fbLoop_cont_step tmpB8 (rest.length + 1) _ _ _ rfl hmsg hcond2 rfl hloop

/-- Claim C8: for the part header carrying filename*=UTF-8 with the two
single quotes and the percent-encoded UTF-8 bytes of the two-character
name, the scanner extracts the filename, percent-decodes it and decodes it
with the declared charset, producing exactly the UTF-8 bytes 228 189 160
followed by .txt — for every fragmentation of the wire body into
non-empty chunks. -/
theorem C8_rfc2231_filename (cs : List Bytes)
    (h1 : ∀ c ∈ cs, c ≠ []) (h2 : joinL cs = f8Body) :
    ∃ s', from_boundary (strBytes ("abc123")) (cs.length + 1) ⟨cs, [], false⟩
        = some (.ok ((strBytes ("up"), some fn8, none), s')) := by
  obtain ⟨n, hn1, hn2, cks, cl, hloop⟩ := fbLoop8 cs [] h1 (by simpa using h2)
  have hp := parse8_stable n hn1 hn2
  unfold from_boundary
  rw [show ([45, 45] : Bytes) ++ strBytes ("abc123") = tmpB8 from rfl, hloop]
  cases hcore : parse_headers_core tmpB8 (f8Body.take n) with
  | error e =>
      exfalso
      simp only [parseFields8, hcore] at hp
      exact absurd hp (by simp)
  | ok q =>
      simp only [parseFields8, hcore] at hp
      have hp2 : q.1 = (strBytes ("up"), some fn8, none) := by simpa using hp
      refine ⟨⟨cks, q.2, cl⟩, ?_⟩
      simp [parse_headers, hcore, hp2]

/-- Witness for C8 at the one-chunk fragmentation. -/
theorem C8_rfc2231_filename_witness :
    (∀ c ∈ [f8Body], c ≠ []) ∧ joinL [f8Body] = f8Body
    ∧ ∃ s', from_boundary (strBytes ("abc123")) 2 ⟨[f8Body], [], false⟩
        = some (.ok ((strBytes ("up"), some fn8, none), s')) := by
  have hne : ∀ c ∈ [f8Body], c ≠ [] := by
    intro c hc
    simp only [List.mem_singleton] at hc
    subst hc
    decide
  have hj : joinL [f8Body] = f8Body := by simp [joinL]
  exact ⟨hne, hj, C8_rfc2231_filename [f8Body] hne hj⟩

end FileUpload
